import Mathlib

/-!
Shallow embedding of the core of the inkscape-figure-manager repository
(two near-identical entry points: src/inkscapefigures/main.py and src/main.py).

A Python `str` is modelled as a `List Char` (`Str`).  Python library behaviour
that the source relies on is modelled once at top level:
  - `str.split(sep)` / `sep.join(...)` for one-character separators,
  - `pathlib.PurePath.suffix` / `.stem` on a final path component,
  - `re.findall(r"[0-9.]+", s)[0]` (with `none` modelling the `IndexError`
    raised when there is no match),
  - `int(part)` on a digit string (with emptiness of the part modelling the
    `ValueError` raised by `int("")`),
  - Python list comparison `<` on lists of non-negative ints.
The repository's own functions are then transcribed per file, in namespaces
`InkFig` (src/inkscapefigures/main.py) and `MainPy` (src/main.py).
Fallible code returns `Option`; `none` models an uncaught exception.
-/

/-- Python `str` values, modelled as lists of characters. -/
abbrev Str := List Char

/-- Helper for `splitChar`: prepend a character to the first piece of a split. -/
def consHead (c : Char) : List Str → List Str
  | [] => [[c]]
  | p :: ps => (c :: p) :: ps

/-- Python `s.split(sep)` for a single-character separator `sep`.
Python semantics: `"".split(sep) == [""]`, separators delimit possibly empty
pieces, and the number of pieces is one more than the number of separators. -/
def splitChar (sep : Char) : Str → List Str
  | [] => [[]]
  | c :: cs => if c = sep then [] :: splitChar sep cs else consHead c (splitChar sep cs)

/-- Python `sep.join(pieces)` for a single-character separator. -/
def joinChar (sep : Char) : List Str → Str
  | [] => []
  | [x] => x
  | x :: y :: rest => x ++ sep :: joinChar sep (y :: rest)

/-- Index of the last occurrence of `c` (Python `s.rfind(c)`, with `none`
for the not-found result `-1`). -/
def rfindIdx (c : Char) : Str → Option Nat
  | [] => none
  | x :: xs =>
    match rfindIdx c xs with
    | some i => some (i + 1)
    | none => if x = c then some 0 else none

/-- `pathlib.PurePath.suffix` applied to a final path component `name`
(CPython: `i = name.rfind('.'); name[i:] if 0 < i < len(name) - 1 else ''`). -/
def pySuffix (name : Str) : Str :=
  match rfindIdx '.' name with
  | some i => if 0 < i ∧ i < name.length - 1 then name.drop i else []
  | none => []

/-- `pathlib.PurePath.stem` applied to a final path component `name`
(CPython: `i = name.rfind('.'); name[:i] if 0 < i < len(name) - 1 else name`). -/
def pyStem (name : Str) : Str :=
  match rfindIdx '.' name with
  | some i => if 0 < i ∧ i < name.length - 1 then name.take i else name
  | none => name

/-- A `pathlib.Path` as the daemon builds it: a parent directory plus a final
component (`Path(path) / filename`).  `parent` of such a path is `dir`, and
`parent / newname` keeps `dir` and replaces `name`. -/
structure FPath where
  dir : Str
  name : Str
deriving DecidableEq

/-- `str(path)` for an `FPath`, as used when the command line is rendered. -/
def FPath.render (p : FPath) : Str :=
  if p.dir = [] then p.name else p.dir ++ '/' :: p.name

/-- Characters matched by the regex character class `[0-9.]`. -/
def isVerChar (c : Char) : Bool := c.isDigit || c = '.'

/-- `re.findall(r"[0-9.]+", s)[0]`: the first maximal run of digits-and-dots.
`none` models the `IndexError` raised by the `[0]` index when the string
contains no digit and no dot at all. -/
def firstVerRun : Str → Option Str
  | [] => none
  | c :: cs => if isVerChar c then some (c :: cs.takeWhile isVerChar) else firstVerRun cs

/-- Python `int(part)` for a nonempty all-digit string. -/
def natOfDigits (cs : Str) : Nat := cs.foldl (fun a c => 10 * a + (c.toNat - 48)) 0

/-- Python list comparison `<` on lists of non-negative integers
(lexicographic; a strict prefix is smaller). -/
def pyListLt : List Nat → List Nat → Bool
  | [], [] => false
  | [], _ :: _ => true
  | _ :: _, [] => false
  | a :: la, b :: lb => if a < b then true else if b < a then false else pyListLt la lb

/-- Python `s.replace(a, b)` for single characters. -/
def replaceChar (a b : Char) (s : Str) : Str := s.map (fun c => if c = a then b else c)

/-- Python `str.title()` (ASCII approximation): a letter following a
non-letter is uppercased, a letter following a letter is lowercased. -/
def pyTitleGo : Bool → Str → Str
  | _, [] => []
  | prevAlpha, c :: cs =>
    (if prevAlpha then c.toLower else c.toUpper) :: pyTitleGo c.isAlpha cs

/-- Python `s.title()`. -/
def pyTitle (s : Str) : Str := pyTitleGo false s

/-- Python `s.lower()` (ASCII approximation). -/
def toLowerStr (s : Str) : Str := s.map Char.toLower

namespace InkFig

/-! Transcription of src/inkscapefigures/main.py. -/

/-- Lines 96-97: `get_roots` reads the registry backing file, splits it on
line breaks and drops empty lines.  The backing file's current text is the
argument. -/
def get_roots (content : Str) : List Str :=
  (splitChar '\n' content).filter (fun root => root ≠ [])

/-- Lines 86-93: `add_root` loads the current roots, returns without writing
when the path is already present, and otherwise rewrites the whole backing
file as the newline-join of the old roots plus the new path.  The result is
the text of the backing file after the call. -/
def add_root (content : Str) (path : Str) : Str :=
  if path ∈ get_roots content then content
  else joinChar '\n' (get_roots content ++ [path])

/-- Lines 73-74: at startup the backing file is created empty when absent
(`roots_file.touch()`).  `none` is the absent file, `some c` a file with
text `c`; the result is the text the file holds afterwards. -/
def ensureRootsFile : Option Str → Str
  | none => []
  | some c => c

/-- The registry load operation as the spec names it: startup creation of a
missing backing file (lines 73-74) followed by `get_roots` (lines 96-97). -/
def loadRegistry (fs : Option Str) : List Str :=
  get_roots (ensureRootsFile fs)

end InkFig

/-! Lemmas about the split/join model. -/

theorem splitChar_ne_nil (sep : Char) (s : Str) : splitChar sep s ≠ [] := by
  induction s with
  | nil => simp [splitChar]
  | cons c cs ih =>
    simp only [splitChar]
    split
    · simp
    · cases h : splitChar sep cs with
      | nil => exact absurd h ih
      | cons p ps => simp [consHead]

theorem splitChar_no_sep {sep : Char} {x : Str} (h : sep ∉ x) : splitChar sep x = [x] := by
  induction x with
  | nil => rfl
  | cons c cs ih =>
    have hc : ¬c = sep := by
      intro hceq
      exact h (hceq ▸ List.mem_cons_self c cs)
    have hcs : sep ∉ cs := fun hm => h (List.mem_cons_of_mem _ hm)
    simp [splitChar, hc, ih hcs, consHead]

theorem splitChar_append {sep : Char} {x : Str} (h : sep ∉ x) (rest : Str) :
    splitChar sep (x ++ sep :: rest) = x :: splitChar sep rest := by
  induction x with
  | nil => simp [splitChar]
  | cons c cs ih =>
    have hc : ¬c = sep := by
      intro hceq
      exact h (hceq ▸ List.mem_cons_self c cs)
    have hcs : sep ∉ cs := fun hm => h (List.mem_cons_of_mem _ hm)
    simp [splitChar, hc, ih hcs, consHead]

theorem splitChar_joinChar {sep : Char} :
    ∀ l : List Str, l ≠ [] → (∀ x ∈ l, sep ∉ x) → splitChar sep (joinChar sep l) = l
  | [], h, _ => absurd rfl h
  | [x], _, hx => by
    simpa [joinChar] using splitChar_no_sep (hx x (by simp))
  | x :: y :: l, _, hx => by
    have h1 : sep ∉ x := hx x (by simp)
    rw [joinChar, splitChar_append h1,
      splitChar_joinChar (y :: l) (by simp) (fun z hz => hx z (List.mem_cons_of_mem _ hz))]

theorem mem_consHead {c : Char} {l : List Str} {x : Str} (hx : x ∈ consHead c l) :
    (l = [] ∧ x = [c]) ∨ ∃ p ps, l = p :: ps ∧ (x = c :: p ∨ x ∈ ps) := by
  cases l with
  | nil =>
    simp only [consHead, List.mem_singleton] at hx
    exact Or.inl ⟨rfl, hx⟩
  | cons p ps =>
    simp only [consHead, List.mem_cons] at hx
    exact Or.inr ⟨p, ps, rfl, hx⟩

theorem mem_splitChar {sep : Char} : ∀ (s : Str), ∀ x ∈ splitChar sep s, sep ∉ x := by
  intro s
  induction s with
  | nil =>
    intro x hx
    simp only [splitChar, List.mem_singleton] at hx
    subst hx
    simp
  | cons c cs ih =>
    intro x hx
    simp only [splitChar] at hx
    by_cases hc : c = sep
    · rw [if_pos hc] at hx
      rcases List.mem_cons.mp hx with rfl | hx
      · simp
      · exact ih x hx
    · rw [if_neg hc] at hx
      rcases mem_consHead hx with ⟨_, rfl⟩ | ⟨p, ps, heq, hor⟩
      · intro hm
        rcases List.mem_singleton.mp hm with rfl
        exact hc rfl
      · rcases hor with rfl | hxps
        · intro hm
          rcases List.mem_cons.mp hm with heq2 | hm2
          · exact hc heq2.symm
          · exact ih p (by rw [heq]; exact List.mem_cons_self p ps) hm2
        · exact ih x (by rw [heq]; exact List.mem_cons_of_mem p hxps)

/-! Lemmas about the Root Registry. -/

theorem get_roots_props {c r : Str} (h : r ∈ InkFig.get_roots c) :
    r ≠ [] ∧ ('\n' : Char) ∉ r := by
  rcases List.mem_filter.mp h with ⟨hmem, hne⟩
  refine ⟨by simpa using hne, mem_splitChar c r hmem⟩

theorem get_roots_add_root (c p : Str) (hp : p ≠ []) (hnl : ('\n' : Char) ∉ p) :
    InkFig.get_roots (InkFig.add_root c p) =
      if p ∈ InkFig.get_roots c then InkFig.get_roots c else InkFig.get_roots c ++ [p] := by
  by_cases hmem : p ∈ InkFig.get_roots c
  · simp [InkFig.add_root, hmem]
  · rw [if_neg hmem]
    show InkFig.get_roots (InkFig.add_root c p) = InkFig.get_roots c ++ [p]
    rw [InkFig.add_root, if_neg hmem, InkFig.get_roots,
      splitChar_joinChar (InkFig.get_roots c ++ [p]) (by simp) ?nonl]
    case nonl =>
      intro x hx
      rcases List.mem_append.mp hx with hx | hx
      · exact (get_roots_props hx).2
      · rcases List.mem_singleton.mp hx with rfl
        exact hnl
    rw [List.filter_append]
    congr 1
    · apply List.filter_eq_self.mpr
      intro a ha
      simpa using (get_roots_props ha).1
    · simp [hp]

namespace InkFig

/-- Lines 147-157: parse the captured converter version output.  The first
digits-and-dots run is taken (`re.findall(...)[0]`, `none` = `IndexError`),
split on dots, each part converted with `int` (`none` = `ValueError` on an
empty part), and the list is padded with zeros up to three components. -/
def versionTuple (out : Str) : Option (List Nat) :=
  (firstVerRun out).bind fun run =>
    let parts := splitChar '.' run
    if parts.all (fun part => part ≠ []) then
      let nums := parts.map natOfDigits
      some (nums ++ List.replicate (3 - nums.length) 0)
    else none

/-- Line 139: `pdf_path = filepath.parent / (filepath.stem + ".pdf")`. -/
def pdfPathOf (filepath : FPath) : FPath :=
  { dir := filepath.dir, name := pyStem filepath.name ++ ".pdf".toList }

/-- Lines 160-169: the command built when the parsed version is below 1.0.0. -/
def legacyCommand (pdf_path filepath : FPath) : List Str :=
  ["inkscape".toList, "--export-area-page".toList, "--export-dpi".toList,
   "300".toList, "--export-pdf".toList, pdf_path.render,
   "--export-latex".toList, filepath.render]

/-- Lines 171-181: the command built for version 1.0.0 and above. -/
def modernCommand (pdf_path filepath : FPath) : List Str :=
  ["inkscape".toList, filepath.render, "--export-area-page".toList,
   "--export-dpi".toList, "300".toList, "--export-type=pdf".toList,
   "--export-latex".toList, "--export-filename".toList, pdf_path.render]

/-- The Command Builder step of `maybe_recompile_figure` (lines 139 and
147-181): version parsing, the `< [1, 0, 0]` comparison and the choice of
command form, together with the output path.  `none` models the uncaught
exception out of version parsing. -/
def buildCommand (versionOut : Str) (filepath : FPath) : Option (List Str × FPath) :=
  (versionTuple versionOut).map fun t =>
    if pyListLt t [1, 0, 0] then
      (legacyCommand (pdfPathOf filepath) filepath, pdfPathOf filepath)
    else
      (modernCommand (pdfPathOf filepath) filepath, pdfPathOf filepath)

/-- Lines 39-52: `latex_template(name, title)`. -/
def latex_template (name title : Str) : Str :=
  let label := toLowerStr (replaceChar ' ' '_' (replaceChar '-' '_' title))
  let title2 := pyTitle (replaceChar '_' ' ' (replaceChar '-' ' ' title))
  joinChar '\n'
    ["\\begin\x7bfigure\x7d[ht]".toList,
     "    \\centering".toList,
     "    \\incfig\x7b".toList ++ name ++ "\x7d".toList,
     "    \\caption\x7b".toList ++ title2 ++ "\x7d".toList,
     "    \\label\x7bfig:".toList ++ label ++ "\x7d".toList,
     "\\end\x7bfigure\x7d".toList]

/-- Lines 35-36: `beautify(name)`. -/
def beautify (name : Str) : Str :=
  pyTitle (replaceChar '-' ' ' (replaceChar '_' ' ' name))

/-- The behaviour of the external converter during one pipeline run: the text
printed by `inkscape --version` and the exit status of the export command. -/
structure ConverterEnv where
  versionOutput : Str
  exitCode : Int
deriving DecidableEq

/-- The observable side effects of one `maybe_recompile_figure` call:
how many version probes ran, which export commands ran, how many error log
lines were emitted, and which snippets were handed to the clipboard. -/
structure Effects where
  probes : Nat
  runs : List (List Str)
  errorsLogged : Nat
  snippets : List Str
deriving DecidableEq

/-- Lines 129-196: `maybe_recompile_figure(filepath)`.  A non-`.svg` suffix
returns after a debug log with no probe, no run and no snippet; otherwise the
version probe runs, the command is built (`none` = uncaught exception from
version parsing), the export runs, a non-zero exit adds one error log line,
and the snippet is computed from the stem and copied regardless. -/
def maybe_recompile_figure (env : ConverterEnv) (filepath : FPath) : Option Effects :=
  if pySuffix filepath.name ≠ ".svg".toList then
    some { probes := 0, runs := [], errorsLogged := 0, snippets := [] }
  else
    (buildCommand env.versionOutput filepath).map fun cp =>
      { probes := 1
        runs := [cp.1]
        errorsLogged := if env.exitCode ≠ 0 then 1 else 0
        snippets := [latex_template (pyStem filepath.name) (beautify (pyStem filepath.name))] }

/-- Lines 210-214: the per-root registration loop.  `ok root` says whether
`i.add_watch(root)` succeeds; a raising registration is caught, logged and
skipped, and the loop continues with the remaining roots. -/
def registerWatches (roots : List Str) (ok : Str → Bool) : List Str :=
  roots.foldl (fun watches root => if ok root then watches ++ [root] else watches) []

/-- Lines 203-214: the watch set held right after one (re)load cycle of
`watch_daemon_inotify`: the unconditional watch on the registry backing file
plus every root whose registration succeeded. -/
def liveWatchSet (rootsFilePath : Str) (content : Str) (ok : Str → Bool) : List Str :=
  rootsFilePath :: registerWatches (get_roots content) ok

/-- What the daemon loop does with one delivered event: either the reload
transition (break out, tear down watches, re-read the registry) or a dispatch
to `maybe_recompile_figure` with its resulting effects. -/
inductive DaemonStep
  | reload
  | dispatch (result : Option Effects)
deriving DecidableEq

/-- Lines 216-231: the body of the inotify event loop for one event
`(path, filename)`: an event whose path is the registry backing file takes
the reload branch before any figure processing; any other event is dispatched
to `maybe_recompile_figure(Path(path) / filename)`. -/
def handleInotifyEvent (rootsFilePath : Str) (env : ConverterEnv)
    (path filename : Str) : DaemonStep :=
  if path = rootsFilePath then .reload
  else .dispatch (maybe_recompile_figure env { dir := path, name := filename })

/-- `pathlib.Path(s)` for a slash-separated string, split into parent
directory and final component. -/
def pathOfStr (s : Str) : FPath :=
  let parts := splitChar '/' s
  { dir := joinChar '/' parts.dropLast, name := parts.getLastD [] }

/-- Lines 246-254: the body of the fswatch loop for one line read from the
child process: a line equal to the registry backing file path takes the
reload branch (terminate and respawn); any other line is dispatched to
`maybe_recompile_figure(filepath)`. -/
def handleFswatchLine (rootsFilePath : Str) (env : ConverterEnv) (line : Str) : DaemonStep :=
  if line = rootsFilePath then .reload
  else .dispatch (maybe_recompile_figure env (pathOfStr line))

/-- Converter invocations (version probes plus export runs) caused by one
daemon step.  A dispatch that ended in the version-parsing exception still
ran its one version probe. -/
def stepConverterInvocations : DaemonStep → Nat
  | .reload => 0
  | .dispatch none => 1
  | .dispatch (some e) => e.probes + e.runs.length

/-- Snippets handed to the clipboard by one daemon step. -/
def stepSnippets : DaemonStep → List Str
  | .reload => []
  | .dispatch none => []
  | .dispatch (some e) => e.snippets

end InkFig

namespace MainPy

/-! Transcription of the same routines from src/main.py
(`maybeRecompileFigure`, lines 181-248). -/

/-- Lines 199-209: version parsing in `maybeRecompileFigure`. -/
def versionTuple (out : Str) : Option (List Nat) :=
  (firstVerRun out).bind fun run =>
    let parts := splitChar '.' run
    if parts.all (fun part => part ≠ []) then
      let nums := parts.map natOfDigits
      some (nums ++ List.replicate (3 - nums.length) 0)
    else none

/-- Line 191: `pdfPath = filepath.parent / (filepath.stem + ".pdf")`. -/
def pdfPathOf (filepath : FPath) : FPath :=
  { dir := filepath.dir, name := pyStem filepath.name ++ ".pdf".toList }

/-- Lines 212-221: the command built when the parsed version is below 1.0.0. -/
def legacyCommand (pdfPath filepath : FPath) : List Str :=
  ["inkscape".toList, "--export-area-page".toList, "--export-dpi".toList,
   "300".toList, "--export-pdf".toList, pdfPath.render,
   "--export-latex".toList, filepath.render]

/-- Lines 223-233: the command built for version 1.0.0 and above. -/
def modernCommand (pdfPath filepath : FPath) : List Str :=
  ["inkscape".toList, filepath.render, "--export-area-page".toList,
   "--export-dpi".toList, "300".toList, "--export-type=pdf".toList,
   "--export-latex".toList, "--export-filename".toList, pdfPath.render]

/-- The Command Builder step of `maybeRecompileFigure` (lines 191 and
199-233): version parsing, the `< [1, 0, 0]` comparison and the choice of
command form, together with the output path. -/
def buildCommand (versionOut : Str) (filepath : FPath) : Option (List Str × FPath) :=
  (versionTuple versionOut).map fun t =>
    if pyListLt t [1, 0, 0] then
      (legacyCommand (pdfPathOf filepath) filepath, pdfPathOf filepath)
    else
      (modernCommand (pdfPathOf filepath) filepath, pdfPathOf filepath)

end MainPy

/-! Lemmas about watch registration. -/

theorem registerWatches_foldl (ok : Str → Bool) :
    ∀ (roots watches : List Str),
      roots.foldl (fun w r => if ok r then w ++ [r] else w) watches =
        watches ++ roots.filter ok := by
  intro roots
  induction roots with
  | nil => intro w; simp
  | cons r rs ih =>
    intro w
    by_cases h : ok r
    · simp [List.foldl_cons, h, ih, List.filter_cons]
    · simp [List.foldl_cons, h, ih, List.filter_cons]

theorem registerWatches_eq_filter (roots : List Str) (ok : Str → Bool) :
    InkFig.registerWatches roots ok = roots.filter ok := by
  simpa [InkFig.registerWatches] using registerWatches_foldl ok roots []

/-! Claim theorems. -/

/-- Claim C1, counterexample: on the version string with no digits at all
(the empty string), the Command Builder raises — version parsing indexes an
empty findall result, modelled as `none` — and so does not behave like
version "0.0.0", which succeeds and yields a command. -/
theorem c1_command_builder_raises_counterexample :
    InkFig.buildCommand "".toList { dir := "/tmp".toList, name := "fig.svg".toList } = none ∧
    InkFig.buildCommand "0.0.0".toList { dir := "/tmp".toList, name := "fig.svg".toList }
      ≠ none := by
  exact ⟨by decide, by decide⟩

/-- Claim C1 (amended): the Command Builder never raises on a version string
whose first digits-and-dots run exists and has no empty dot-separated part;
but on a string with no digit or dot at all — such as the empty string — the
version parse raises (`IndexError` from indexing an empty findall result,
modelled as `none`) instead of degrading to version "0.0.0". -/
theorem c1_command_builder_no_raise_amended :
    (∀ (v run : Str) (fp : FPath),
      firstVerRun v = some run →
      (splitChar '.' run).all (fun part => part ≠ []) = true →
      (InkFig.buildCommand v fp).isSome = true) ∧
    (∀ fp : FPath, InkFig.buildCommand "".toList fp = none) := by
  constructor
  · intro v run fp h1 h2
    simp only [InkFig.buildCommand, InkFig.versionTuple, h1, Option.some_bind]
    rw [if_pos h2]
    simp
  · intro fp
    rfl

/-- Claim C1, witness for the amended theorem at a realistic version string. -/
theorem c1_command_builder_witness :
    firstVerRun "Inkscape 0.92.4 (5da689c313, 2019-01-14)".toList = some "0.92.4".toList ∧
    (splitChar '.' "0.92.4".toList).all (fun part => part ≠ []) = true ∧
    (InkFig.buildCommand "Inkscape 0.92.4 (5da689c313, 2019-01-14)".toList
      { dir := "/tmp".toList, name := "fig.svg".toList }).isSome = true :=
  ⟨by decide, by decide,
    c1_command_builder_no_raise_amended.1 _ "0.92.4".toList _ (by decide) (by decide)⟩

/-- Claim C2: whenever the parsed three-component tuple is lexicographically
below (1,0,0), the builder emits the legacy command form, otherwise the
modern form; and "1.0.0", "1.0" and "1.0.0rc1" parse to [1,0,0] (modern)
while "0.92.4" parses to [0,92,4] (legacy). -/
theorem c2_version_decision_rule :
    (∀ (v : Str) (t : List Nat) (fp : FPath),
      InkFig.versionTuple v = some t →
      InkFig.buildCommand v fp =
        some (if pyListLt t [1, 0, 0] then
                (InkFig.legacyCommand (InkFig.pdfPathOf fp) fp, InkFig.pdfPathOf fp)
              else
                (InkFig.modernCommand (InkFig.pdfPathOf fp) fp, InkFig.pdfPathOf fp))) ∧
    InkFig.versionTuple "1.0.0".toList = some [1, 0, 0] ∧
    InkFig.versionTuple "1.0".toList = some [1, 0, 0] ∧
    InkFig.versionTuple "1.0.0rc1".toList = some [1, 0, 0] ∧
    InkFig.versionTuple "0.92.4".toList = some [0, 92, 4] ∧
    pyListLt [1, 0, 0] [1, 0, 0] = false ∧
    pyListLt [0, 92, 4] [1, 0, 0] = true := by
  refine ⟨?_, by decide, by decide, by decide, by decide, by decide, by decide⟩
  intro v t fp h
  simp [InkFig.buildCommand, h]

/-- Claim C2, witness: the decision rule applied at version "0.92.4". -/
theorem c2_version_decision_witness :
    InkFig.versionTuple "0.92.4".toList = some [0, 92, 4] ∧
    InkFig.buildCommand "0.92.4".toList { dir := "/tmp".toList, name := "fig.svg".toList } =
      some (if pyListLt [0, 92, 4] [1, 0, 0] then
              (InkFig.legacyCommand
                (InkFig.pdfPathOf { dir := "/tmp".toList, name := "fig.svg".toList })
                { dir := "/tmp".toList, name := "fig.svg".toList },
               InkFig.pdfPathOf { dir := "/tmp".toList, name := "fig.svg".toList })
            else
              (InkFig.modernCommand
                (InkFig.pdfPathOf { dir := "/tmp".toList, name := "fig.svg".toList })
                { dir := "/tmp".toList, name := "fig.svg".toList },
               InkFig.pdfPathOf { dir := "/tmp".toList, name := "fig.svg".toList })) :=
  ⟨by decide, c2_version_decision_rule.1 _ [0, 92, 4] _ (by decide)⟩

/-- Claim C3, counterexample: the path "a\nb" (legal as a directory name) is
added to an empty registry; at the next reload cycle — every directory
registration succeeding, so the proviso of the claim holds — the newline is
re-read as a line separator and the live watch set contains "a" and "b" but
not the added path itself. -/
theorem c3_reload_convergence_counterexample :
    "a\nb".toList ∉
      InkFig.liveWatchSet "/r".toList (InkFig.add_root "".toList "a\nb".toList)
        (fun _ => true) := by
  decide

/-- Claim C3 (amended): after `add_root p` on any registry content, the next
reload cycle puts `p` in the live watch set, provided `p` registers
successfully (is a valid, readable directory) and, additionally, `p` is
nonempty and contains no line break. -/
theorem c3_reload_convergence_amended :
    ∀ (content p rootsFilePath : Str) (ok : Str → Bool),
      p ≠ [] → ('\n' : Char) ∉ p → ok p = true →
      p ∈ InkFig.liveWatchSet rootsFilePath (InkFig.add_root content p) ok := by
  intro content p rf ok hp hnl hok
  have hmem : p ∈ InkFig.get_roots (InkFig.add_root content p) := by
    rw [get_roots_add_root content p hp hnl]
    by_cases h : p ∈ InkFig.get_roots content
    · rwa [if_pos h]
    · rw [if_neg h]
      exact List.mem_append_right _ (List.mem_singleton_self p)
  show p ∈ rf :: InkFig.registerWatches (InkFig.get_roots (InkFig.add_root content p)) ok
  refine List.mem_cons_of_mem _ ?_
  rw [registerWatches_eq_filter]
  exact List.mem_filter.mpr ⟨hmem, hok⟩

/-- Claim C3, witness for the amended theorem with a concrete directory. -/
theorem c3_reload_convergence_witness :
    "/home/user/figures".toList ≠ ([] : Str) ∧
    ('\n' : Char) ∉ "/home/user/figures".toList ∧
    "/home/user/figures".toList ∈
      InkFig.liveWatchSet "/r".toList
        (InkFig.add_root "".toList "/home/user/figures".toList) (fun _ => true) :=
  ⟨by decide, by decide,
    c3_reload_convergence_amended _ _ _ _ (by decide) (by decide) rfl⟩

/-- Claim C4: in both backends an event on the registry's own backing file
takes the reload branch of the loop, and the reload step performs zero
converter invocations and dispatches zero snippets. -/
theorem c4_registry_event_never_dispatched :
    (∀ (rootsFilePath : Str) (env : InkFig.ConverterEnv) (filename : Str),
      InkFig.handleInotifyEvent rootsFilePath env rootsFilePath filename =
        InkFig.DaemonStep.reload) ∧
    (∀ (rootsFilePath : Str) (env : InkFig.ConverterEnv),
      InkFig.handleFswatchLine rootsFilePath env rootsFilePath =
        InkFig.DaemonStep.reload) ∧
    InkFig.stepConverterInvocations InkFig.DaemonStep.reload = 0 ∧
    InkFig.stepSnippets InkFig.DaemonStep.reload = [] := by
  refine ⟨?_, ?_, rfl, rfl⟩
  · intro rf env fn
    simp [InkFig.handleInotifyEvent]
  · intro rf env
    simp [InkFig.handleFswatchLine]

/-- Claim C5: for a changed file with the `.svg` suffix, whenever the version
probe output parses, the pipeline dispatches exactly one snippet — computed
from the file stem — whatever the converter exit status; it runs exactly one
export command; and a non-zero exit adds exactly one error log line. -/
theorem c5_snippet_dispatched_regardless_of_exit :
    ∀ (env : InkFig.ConverterEnv) (fp : FPath),
      pySuffix fp.name = ".svg".toList →
      (InkFig.versionTuple env.versionOutput).isSome = true →
      (InkFig.maybe_recompile_figure env fp).map InkFig.Effects.snippets =
        some [InkFig.latex_template (pyStem fp.name) (InkFig.beautify (pyStem fp.name))] ∧
      (InkFig.maybe_recompile_figure env fp).map (fun e => e.runs.length) = some 1 ∧
      (InkFig.maybe_recompile_figure env fp).map InkFig.Effects.errorsLogged =
        some (if env.exitCode ≠ 0 then 1 else 0) := by
  intro env fp hs hv
  rcases ht : InkFig.versionTuple env.versionOutput with _ | t
  · rw [ht] at hv
    simp at hv
  · refine ⟨?_, ?_, ?_⟩ <;>
      simp [InkFig.maybe_recompile_figure, hs, InkFig.buildCommand, ht]

/-- Claim C5, witness: a changed `.svg` file with converter exit status 1
still yields exactly one snippet. -/
theorem c5_snippet_witness :
    pySuffix "figure.svg".toList = ".svg".toList ∧
    (InkFig.versionTuple "Inkscape 1.0 (4035a4fb49, 2020-05-01)".toList).isSome = true ∧
    ((InkFig.maybe_recompile_figure
        { versionOutput := "Inkscape 1.0 (4035a4fb49, 2020-05-01)".toList, exitCode := 1 }
        { dir := "/tmp/a".toList, name := "figure.svg".toList }).map InkFig.Effects.snippets =
      some [InkFig.latex_template (pyStem "figure.svg".toList)
              (InkFig.beautify (pyStem "figure.svg".toList))] ∧
     (InkFig.maybe_recompile_figure
        { versionOutput := "Inkscape 1.0 (4035a4fb49, 2020-05-01)".toList, exitCode := 1 }
        { dir := "/tmp/a".toList, name := "figure.svg".toList }).map (fun e => e.runs.length) =
      some 1 ∧
     (InkFig.maybe_recompile_figure
        { versionOutput := "Inkscape 1.0 (4035a4fb49, 2020-05-01)".toList, exitCode := 1 }
        { dir := "/tmp/a".toList, name := "figure.svg".toList }).map InkFig.Effects.errorsLogged =
      some (if (1 : Int) ≠ 0 then 1 else 0)) :=
  ⟨by decide, by decide,
    c5_snippet_dispatched_regardless_of_exit _ _ (by decide) (by decide)⟩

/-- Claim C6: a changed file whose suffix is not `.svg` is discarded with no
version probe, no export run, no error log line and no snippet dispatch. -/
theorem c6_non_svg_event_discarded :
    ∀ (env : InkFig.ConverterEnv) (fp : FPath),
      pySuffix fp.name ≠ ".svg".toList →
      InkFig.maybe_recompile_figure env fp =
        some { probes := 0, runs := [], errorsLogged := 0, snippets := [] } ∧
      InkFig.stepConverterInvocations
        (InkFig.DaemonStep.dispatch (InkFig.maybe_recompile_figure env fp)) = 0 ∧
      InkFig.stepSnippets
        (InkFig.DaemonStep.dispatch (InkFig.maybe_recompile_figure env fp)) = [] := by
  intro env fp h
  have h1 : InkFig.maybe_recompile_figure env fp =
      some { probes := 0, runs := [], errorsLogged := 0, snippets := [] } := by
    unfold InkFig.maybe_recompile_figure
    rw [if_pos h]
  refine ⟨h1, ?_, ?_⟩
  · rw [h1]
    rfl
  · rw [h1]
    rfl

/-- Claim C6, witness: a change event for `figure.txt`. -/
theorem c6_non_svg_witness :
    pySuffix "figure.txt".toList ≠ ".svg".toList ∧
    (InkFig.maybe_recompile_figure { versionOutput := "1.0".toList, exitCode := 0 }
        { dir := "/tmp/a".toList, name := "figure.txt".toList } =
      some { probes := 0, runs := [], errorsLogged := 0, snippets := [] } ∧
     InkFig.stepConverterInvocations
        (InkFig.DaemonStep.dispatch
          (InkFig.maybe_recompile_figure { versionOutput := "1.0".toList, exitCode := 0 }
            { dir := "/tmp/a".toList, name := "figure.txt".toList })) = 0 ∧
     InkFig.stepSnippets
        (InkFig.DaemonStep.dispatch
          (InkFig.maybe_recompile_figure { versionOutput := "1.0".toList, exitCode := 0 }
            { dir := "/tmp/a".toList, name := "figure.txt".toList })) = []) :=
  ⟨by decide, c6_non_svg_event_discarded _ _ (by decide)⟩

/-- Claim C7, counterexample: adding the path "x\ny" twice to an empty
registry produces the entries ["x", "y", "x", "y"]: the registry holds zero
(not one) entries equal to the added path and contains duplicate entries. -/
theorem c7_add_root_unique_counterexample :
    ¬ (InkFig.get_roots
        (InkFig.add_root (InkFig.add_root "".toList "x\ny".toList) "x\ny".toList)).Nodup ∧
    (InkFig.get_roots
        (InkFig.add_root (InkFig.add_root "".toList "x\ny".toList) "x\ny".toList)).count
      "x\ny".toList ≠ 1 := by
  exact ⟨by decide, by decide⟩

/-- Claim C7 (amended): adding a path already present (exact string match) is
a no-op that leaves the backing file unchanged; for a nonempty path that
contains no line break, adding twice equals adding once, the added path is a
member of the resulting registry, and an add preserves duplicate-freedom (so
a duplicate-free registry keeps exactly one entry for that path).  A path
containing a line break is split into its lines on re-read, so re-adding it
appends again and can produce duplicate entries. -/
theorem c7_add_root_idempotent_amended :
    (∀ content p : Str, p ∈ InkFig.get_roots content → InkFig.add_root content p = content) ∧
    (∀ content p : Str, p ≠ [] → ('\n' : Char) ∉ p →
      InkFig.add_root (InkFig.add_root content p) p = InkFig.add_root content p) ∧
    (∀ content p : Str, p ≠ [] → ('\n' : Char) ∉ p →
      p ∈ InkFig.get_roots (InkFig.add_root content p)) ∧
    (∀ content p : Str, p ≠ [] → ('\n' : Char) ∉ p → (InkFig.get_roots content).Nodup →
      (InkFig.get_roots (InkFig.add_root content p)).Nodup) := by
  have hmem : ∀ content p : Str, p ≠ [] → ('\n' : Char) ∉ p →
      p ∈ InkFig.get_roots (InkFig.add_root content p) := by
    intro content p hp hnl
    rw [get_roots_add_root content p hp hnl]
    by_cases h : p ∈ InkFig.get_roots content
    · rwa [if_pos h]
    · rw [if_neg h]
      exact List.mem_append_right _ (List.mem_singleton_self p)
  refine ⟨?_, ?_, hmem, ?_⟩
  · intro content p h
    simp [InkFig.add_root, h]
  · intro content p hp hnl
    by_cases h : p ∈ InkFig.get_roots content
    · have e1 : InkFig.add_root content p = content := by simp [InkFig.add_root, h]
      rw [e1]
      exact e1
    · conv_lhs => rw [InkFig.add_root]
      rw [if_pos (hmem content p hp hnl)]
  · intro content p hp hnl hnodup
    rw [get_roots_add_root content p hp hnl]
    by_cases h : p ∈ InkFig.get_roots content
    · rwa [if_pos h]
    · rw [if_neg h, List.nodup_append]
      exact ⟨hnodup, List.nodup_singleton p, by simpa [List.disjoint_singleton] using h⟩
/-- Claim C7, witness for the amended theorem: adding a concrete directory
path twice equals adding it once. -/
theorem c7_add_root_witness :
    "/home/user/figures".toList ≠ ([] : Str) ∧
    ('\n' : Char) ∉ "/home/user/figures".toList ∧
    InkFig.add_root (InkFig.add_root "".toList "/home/user/figures".toList)
        "/home/user/figures".toList =
      InkFig.add_root "".toList "/home/user/figures".toList :=
  ⟨by decide, by decide,
    c7_add_root_idempotent_amended.2.1 _ _ (by decide) (by decide)⟩

/-- Claim C8: the per-directory registration loop never aborts — its result
is exactly the roots whose registration succeeded — and any root whose
registration succeeds is watched no matter how many other roots fail. -/
theorem c8_registration_failure_isolated :
    (∀ (roots : List Str) (ok : Str → Bool),
      InkFig.registerWatches roots ok = roots.filter ok) ∧
    (∀ (roots : List Str) (ok : Str → Bool) (r : Str),
      r ∈ roots → ok r = true → r ∈ InkFig.registerWatches roots ok) := by
  refine ⟨registerWatches_eq_filter, ?_⟩
  intro roots ok r hr hok
  rw [registerWatches_eq_filter]
  exact List.mem_filter.mpr ⟨hr, hok⟩

/-- Claim C8, witness: one bad root does not keep a good root from being
watched. -/
theorem c8_registration_witness :
    "/ok".toList ∈ (["/bad".toList, "/ok".toList] : List Str) ∧
    "/ok".toList ∈ InkFig.registerWatches ["/bad".toList, "/ok".toList]
      (fun r => decide (r ≠ "/bad".toList)) :=
  ⟨by decide, c8_registration_failure_isolated.2 _ _ _ (by decide) (by decide)⟩

/-- Claim C9: loading the registry splits the backing file on line breaks and
keeps exactly the nonempty lines; an absent backing file is created empty at
startup and loads as the empty registry instead of raising. -/
theorem c9_load_registry_soft_fail :
    InkFig.loadRegistry none = [] ∧
    InkFig.ensureRootsFile none = [] ∧
    (∀ content r : Str,
      r ∈ InkFig.loadRegistry (some content) ↔ r ∈ splitChar '\n' content ∧ r ≠ []) := by
  refine ⟨rfl, rfl, ?_⟩
  intro content r
  simp [InkFig.loadRegistry, InkFig.ensureRootsFile, InkFig.get_roots, List.mem_filter]

/-- Claim C10: for every version output and source path the two entry points
build the same converter argument vector and the same output path, and that
output path is the source stem with the `.pdf` extension in the source's own
directory. -/
theorem c10_entry_points_equivalent :
    (∀ (v : Str) (fp : FPath), MainPy.buildCommand v fp = InkFig.buildCommand v fp) ∧
    (∀ fp : FPath, MainPy.pdfPathOf fp = InkFig.pdfPathOf fp) ∧
    (∀ fp : FPath,
      InkFig.pdfPathOf fp = { dir := fp.dir, name := pyStem fp.name ++ ".pdf".toList }) :=
  ⟨fun _ _ => rfl, fun _ => rfl, fun _ => rfl⟩
